import Mathlib

/-!
Verification development for the large-repository chunked-transfer engine of
`gitlab_mirror` (file `src/gitlab_mirror/utils/large_repo_handler.py`).

The Python code is shallowly embedded: every git invocation is abstracted by an
environment record that supplies the (return code, stdout, stderr) data the
Python code inspects, and each method of `LargeRepoHandler` becomes a pure Lean
function over such an environment.  String processing (`split`, `strip`,
`replace`, substring tests) is re-implemented over `List Char` so that all
definitions evaluate by kernel reduction.
-/

set_option autoImplicit false

namespace GitlabMirror

/-! ### Character/string primitives mirroring the Python `str` operations used -/

def nlChar : Char := Char.ofNat 10

def spChar : Char := Char.ofNat 32

def tabChar : Char := Char.ofNat 9

def crChar : Char := Char.ofNat 13

def colonChar : Char := Char.ofNat 58

/-- Model of Python `s.split(c)` for a single-character separator. -/
def splitOnChar (c : Char) : List Char → List (List Char)
  | [] => [[]]
  | x :: t =>
    let r := splitOnChar c t
    if x = c then [] :: r
    else
      match r with
      | [] => [[x]]
      | h :: rt => (x :: h) :: rt

/-- Model of Python `s.split("\n")` (and of `splitlines` for the inputs that
occur here: a trailing newline only adds an empty line, which every caller
filters out). -/
def linesOf (s : String) : List String :=
  (splitOnChar nlChar s.toList).map (fun l => String.mk l)

def isWsChar (c : Char) : Bool :=
  c = spChar || c = tabChar || c = nlChar || c = crChar

/-- Model of Python `s.strip()`. -/
def strip (s : String) : String :=
  String.mk (((s.toList.dropWhile isWsChar).reverse.dropWhile isWsChar).reverse)

/-- True when the character list `p` starts the list `l` (Python `startswith` on lists). -/
def leadsList : List Char → List Char → Bool
  | [], _ => true
  | _ :: _, [] => false
  | a :: ps, b :: ls => a == b && leadsList ps ls

def subAux (p : List Char) : List Char → Bool
  | [] => p.isEmpty
  | c :: t => leadsList p (c :: t) || subAux p t

/-- Model of the Python substring test `pat in s`. -/
def strContains (s pat : String) : Bool :=
  subAux pat.toList s.toList

def startsWithStr (s pat : String) : Bool :=
  leadsList pat.toList s.toList

/-- Fuel-indexed worker for `replaceStr`; the fuel is the length of the scanned
list, which bounds the number of scan steps. -/
def replaceAux (pat rep : List Char) : Nat → List Char → List Char
  | _, [] => []
  | 0, l => l
  | fuel + 1, c :: t =>
    if pat ≠ [] ∧ leadsList pat (c :: t) then
      rep ++ replaceAux pat rep fuel (t.drop (pat.length - 1))
    else
      c :: replaceAux pat rep fuel t

/-- Model of Python `s.replace(pat, rep)` (all occurrences, left to right). -/
def replaceStr (s pat rep : String) : String :=
  String.mk (replaceAux pat.toList rep.toList s.toList.length s.toList)

/-- Model of Python `line.split(" ")[0]`. -/
def firstWord (line : String) : String :=
  String.mk ((splitOnChar spChar line.toList).headD [])

/-! ### `LargeRepoHandler.find_milestones` -/

/-- Environment abstracting the git calls made by `find_milestones` and by the
branch-selection prologue of `push_in_chunks`:
`git branch`, `git symbolic-ref --short HEAD` and `git log --oneline --reverse`. -/
structure RepoEnv where
  branchListCode : Nat
  branchListOut : String
  headRefCode : Nat
  headRefOut : String
  logCode : String → Nat
  logOut : String → String

/-- Python
`[b.strip().replace("* ", "") for b in stdout.strip().split("\n") if b.strip()]`. -/
def availableBranches (stdout : String) : List String :=
  ((linesOf (strip stdout)).filter (fun b => strip b != "")).map
    (fun b => replaceStr (strip b) ("* ") (""))

/-- The three default-branch detection methods of `find_milestones`. -/
def defaultBranchOf (env : RepoEnv) : Option String :=
  let available := availableBranches env.branchListOut
  if env.headRefCode = 0 ∧ strip env.headRefOut ≠ "" then
    some (strip env.headRefOut)
  else
    match (["main", "master", "develop", "dev"].filter
        (fun b => available.contains b)).head? with
    | some b => some b
    | none => available.head?

/-- Python `[line for line in stdout.strip().split("\n") if line.strip()]`. -/
def parseLogLines (stdout : String) : List String :=
  (linesOf (strip stdout)).filter (fun l => strip l != "")

/-- The milestone-selection loop of `find_milestones`:
`for i, line in enumerate(all_commits): if i % step == 0 and line: ...append(line.split(" ")[0])`. -/
def milestonesAux (S : Nat) : Nat → List String → List String
  | _, [] => []
  | i, line :: rest =>
    if i % S = 0 ∧ line ≠ "" then
      firstWord line :: milestonesAux S (i + 1) rest
    else
      milestonesAux S (i + 1) rest

def milestonesOf (all_commits : List String) (S : Nat) : List String :=
  milestonesAux S 0 all_commits

/-- Model of `LargeRepoHandler.find_milestones(step)` over a `RepoEnv` (lines 612-687). -/
def findMilestones (env : RepoEnv) (step : Nat) : List String :=
  if env.branchListCode ≠ 0 then []
  else
    match defaultBranchOf env with
    | none => []
    | some b =>
      if env.logCode b ≠ 0 then []
      else
        let all_commits := parseLogLines (env.logOut b)
        if all_commits = [] then []
        else milestonesOf all_commits step

/-- The history positions selected by the milestone loop: every position
`i < N` with `i % S = 0`. -/
def milestonePositions (N S : Nat) : List Nat :=
  (List.range N).filter (fun i => i % S == 0)

/-- Branch selection of `push_in_chunks` (lines 464-477): prefer `main`, then
`master`, then the first listed branch, defaulting to `main`. -/
def pickBranch (branchOut : String) : String :=
  let available := availableBranches branchOut
  if available.contains "main" then "main"
  else if available.contains "master" then "master"
  else
    match available.head? with
    | some b => b
    | none => "main"

/-! ### `LargeRepoHandler.setup_target_remote` and `find_already_pushed_commits` -/

/-- Environment for `setup_target_remote`: outcomes of `git remote`,
`git remote add/set-url target` and the verification `git remote get-url target`. -/
structure RemoteEnv where
  listCode : Nat
  listOut : String
  addCode : Nat
  setUrlCode : Nat
  getUrlCode : Nat

/-- Python `[r.strip() for r in stdout.splitlines() if r.strip()]`. -/
def remotesOf (stdout : String) : List String :=
  ((linesOf stdout).map strip).filter (fun r => r != "")

/-- Model of `LargeRepoHandler.setup_target_remote` (lines 315-368). -/
def setup_target_remote (env : RemoteEnv) : Bool :=
  if env.listCode ≠ 0 then false
  else
    let remotes := remotesOf env.listOut
    let cmdCode := if remotes.contains "target" then env.setUrlCode else env.addCode
    if cmdCode ≠ 0 then false
    else if env.getUrlCode ≠ 0 then false
    else true

/-- Environment for `find_already_pushed_commits`: its internal
`setup_target_remote` call, `git fetch target --prune`, `git branch -r`
and the per-branch `git rev-list` calls.  The `git rev-list --count
target/master` query is only logged by the Python code and is not modelled. -/
structure AuditEnv where
  remote : RemoteEnv
  fetchCode : Nat
  branchRCode : Nat
  branchROut : String
  revListCode : String → Nat
  revListOut : String → String

/-- The `target/`-namespaced branches extracted from `git branch -r` output. -/
def targetBranchesOf (stdout : String) : List String :=
  ((linesOf stdout).map strip).filter (fun b => startsWithStr b ("target/"))

/-- Python `set.add`. -/
def insertSha (acc : List String) (sha : String) : List String :=
  if acc.contains sha then acc else acc ++ [sha]

/-- Model of `LargeRepoHandler.find_already_pushed_commits` (lines 370-450). -/
def find_already_pushed_commits (env : AuditEnv) : List String :=
  if !setup_target_remote env.remote then []
  else if env.fetchCode ≠ 0 then []
  else if env.branchRCode ≠ 0 then []
  else
    let tbs := targetBranchesOf env.branchROut
    if tbs = [] then []
    else
      tbs.foldl
        (fun acc b =>
          if env.revListCode b ≠ 0 then acc
          else
            (linesOf (env.revListOut b)).foldl
              (fun a l => if strip l != "" then insertSha a (strip l) else a) acc)
        []

/-! ### `LargeRepoHandler.push_in_chunks` -/

/-- Observable actions of a run, used to state trace properties
(which pushes were attempted, which sleeps happened, when replanning occurred). -/
inductive Event where
  | planMilestones (step : Nat)
  | setupTarget
  | audit
  | probePush (sha : String)
  | milestonePush (branch sha : String) (attempt : Nat)
  | sleep (seconds : Nat)
  | shrinkStep (oldStep newStep : Nat)
  | mirrorPush (attempt : Nat)
  | cloneSource
  | shallowPush (refspec : String)
deriving DecidableEq

def isPlanEvent : Event → Bool
  | .planMilestones _ => true
  | _ => false

def isShrinkEvent : Event → Bool
  | .shrinkStep _ _ => true
  | _ => false

def isMilestonePushEvent : Event → Bool
  | .milestonePush _ _ _ => true
  | _ => false

def isMirrorPushEvent : Event → Bool
  | .mirrorPush _ => true
  | _ => false

/-- Environment for `push_in_chunks`: the repository state (for
`find_milestones` and branch selection), the target-side state (for
`setup_target_remote` and `find_already_pushed_commits`), `git rev-parse HEAD`,
the per-milestone force pushes `(branch, sha, attempt) ↦ (returncode, stderr)`
and the final mirror pushes `attempt ↦ returncode`. -/
structure PushEnv where
  repo : RepoEnv
  auditEnv : AuditEnv
  revParseCode : Nat
  revParseOut : String
  push : String → String → Nat → Nat × String
  mirrorCode : Nat → Nat

def packMsg : String := "pack exceeds maximum allowed size"

def maxRetries : Nat := 3

/-- Outcome of the three-attempt retry loop for one milestone. -/
inductive AttemptResult where
  | pushed (events : List Event)
  | failedPack (events : List Event)
  | failedOther (events : List Event)
deriving DecidableEq

def AttemptResult.events : AttemptResult → List Event
  | .pushed ev => ev
  | .failedPack ev => ev
  | .failedOther ev => ev

def AttemptResult.prependEv (pre : List Event) : AttemptResult → AttemptResult
  | .pushed ev => .pushed (pre ++ ev)
  | .failedPack ev => .failedPack (pre ++ ev)
  | .failedOther ev => .failedOther (pre ++ ev)

/-- The retry loop `for attempt in range(1, max_retries + 1)` of
`push_in_chunks` (lines 555-581), called on the attempt list `[1, 2, 3]`.
A failed non-final attempt sleeps `5 * 2 ** (attempt - 1)` seconds; the final
attempt distinguishes a pack-size failure from any other failure.  The loop
always resolves on the final attempt, so the `[]` case is never reached from
the actual call. -/
def attemptLoop (env : PushEnv) (branch sha : String) : List Nat → AttemptResult
  | [] => .failedOther []
  | attempt :: rest =>
    let r := env.push branch sha attempt
    if r.1 = 0 then
      .pushed [.milestonePush branch sha attempt]
    else if attempt < maxRetries then
      (attemptLoop env branch sha rest).prependEv
        [.milestonePush branch sha attempt, .sleep (5 * 2 ^ (attempt - 1))]
    else if strContains r.2 packMsg then
      .failedPack [.milestonePush branch sha attempt]
    else
      .failedOther [.milestonePush branch sha attempt]

/-- Outcome of the per-milestone loop: either it ran to completion with an
aggregated success flag, or a pack-size failure requested a replan with a
smaller step. -/
inductive LoopResult where
  | completed (success : Bool) (events : List Event)
  | shrink (newStep : Nat) (events : List Event)
deriving DecidableEq

def LoopResult.events : LoopResult → List Event
  | .completed _ ev => ev
  | .shrink _ ev => ev

def LoopResult.prependEv (pre : List Event) : LoopResult → LoopResult
  | .completed s ev => .completed s (pre ++ ev)
  | .shrink n ev => .shrink n (pre ++ ev)

/-- The per-milestone loop of `push_in_chunks` (lines 544-581): skip milestones
already present, push the rest with the three-attempt retry loop, record other
failures in the success flag and keep going, and on a final pack-size failure
return a shrink request `max 50 (step / 2)` (Python `max(50, step // 2)`). -/
def milestoneLoop (env : PushEnv) (step : Nat) (branch : String) :
    List String → List String → Bool → LoopResult
  | [], _, success => .completed success []
  | sha :: rest, already, success =>
    if already.contains sha then
      milestoneLoop env step branch rest already success
    else
      match attemptLoop env branch sha [1, 2, 3] with
      | .pushed ev =>
          (milestoneLoop env step branch rest (insertSha already sha) success).prependEv ev
      | .failedPack ev =>
          .shrink (max 50 (step / 2)) (ev ++ [.shrinkStep step (max 50 (step / 2))])
      | .failedOther ev =>
          (milestoneLoop env step branch rest already false).prependEv ev

/-- The final mirror-push retry loop (lines 525-537 and 593-604): up to three
attempts with a fixed 5 second delay; its result is only logged. -/
def mirrorLoop (env : PushEnv) : List Nat → List Event
  | [] => []
  | attempt :: rest =>
    if env.mirrorCode attempt = 0 then [.mirrorPush attempt]
    else if attempt < maxRetries then
      .mirrorPush attempt :: .sleep 5 :: mirrorLoop env rest
    else [.mirrorPush attempt]

/-- Model of `LargeRepoHandler.push_in_chunks(step)` (lines 452-610).  The first `Nat`
argument is fuel bounding the depth of the shrink-and-retry recursion (in
Python the recursion depth is bounded only by the interpreter recursion
limit); `none` means the fuel was exhausted, i.e. the recursion did not
complete within that depth. -/
def pushInChunks (env : PushEnv) : Nat → Nat → Option (Bool × List Event)
  | 0, _ => none
  | fuel + 1, step =>
    let milestones := findMilestones env.repo step
    if milestones = [] then some (false, [.planMilestones step])
    else
      let branch := pickBranch env.repo.branchListOut
      if !setup_target_remote env.auditEnv.remote then
        some (false, [.planMilestones step, .setupTarget])
      else
        let already := find_already_pushed_commits env.auditEnv
        let probeEv : List Event :=
          if env.revParseCode = 0 ∧ strip env.revParseOut ≠ "" then
            [.probePush (strip env.revParseOut)]
          else []
        let pre := [.planMilestones step, .setupTarget, .audit] ++ probeEv
        if already.contains (milestones.getLastD "") then
          some (true, pre ++ mirrorLoop env [1, 2, 3])
        else
          match milestoneLoop env step branch milestones already true with
          | .completed success ev =>
              some (success,
                pre ++ ev ++ [.audit] ++ mirrorLoop env [1, 2, 3] ++ [.audit])
          | .shrink newStep ev =>
              match pushInChunks env fuel newStep with
              | none => none
              | some (b, tr) => some (b, pre ++ ev ++ tr)

/-- Copy of `env` with the mirror-push outcomes replaced: used to state that the result
flag of `push_in_chunks` is independent of the final mirror push. -/
def withMirror (env : PushEnv) (m : Nat → Nat) : PushEnv :=
  ⟨env.repo, env.auditEnv, env.revParseCode, env.revParseOut, env.push, m⟩

/-! ### `mirror_large_repo`, `mirror_shallow` and `mirror_repository` -/

/-- Environment for `mirror_large_repo`: the clone/update step plus everything
`push_in_chunks` needs. -/
structure MirrorEnv where
  cloneOk : Bool
  pushEnv : PushEnv

/-- Model of `LargeRepoHandler.mirror_large_repo(step)` (lines 689-742): clone, set up
the target remote, audit, push in chunks, on failure retry once with step
`max 100 (step / 2)`, re-audit, and report. -/
def mirror_large_repo (env : MirrorEnv) (fuel step : Nat) :
    Option (Bool × List Event) :=
  if !env.cloneOk then some (false, [.cloneSource])
  else if !setup_target_remote env.pushEnv.auditEnv.remote then
    some (false, [.cloneSource, .setupTarget])
  else
    let pre : List Event := [.cloneSource, .setupTarget, .audit]
    match pushInChunks env.pushEnv fuel step with
    | none => none
    | some (true, tr) => some (true, pre ++ tr ++ [.audit])
    | some (false, tr) =>
      match pushInChunks env.pushEnv fuel (max 100 (step / 2)) with
      | none => none
      | some (true, tr2) => some (true, pre ++ tr ++ tr2 ++ [.audit])
      | some (false, tr2) => some (false, pre ++ tr ++ tr2)

/-- Environment for `mirror_shallow`: shallow clone or update, default-branch
recovery, target-remote setup and the (at most two) shallow pushes. -/
structure ShallowEnv where
  alreadyCloned : Bool
  cloneCode : Nat
  fetchCode : Nat
  resetCode : Nat
  remoteShowOut : String
  resetDefaultCode : Nat
  remote : RemoteEnv
  pushCode : Nat
  pushStderr : String
  pushTempCode : Nat

/-- Python: scan `git remote show origin` output for the `HEAD branch` line and
take `line.split(":")[-1].strip()`. -/
def headBranchFrom (out : String) : Option String :=
  ((linesOf out).find? (fun l => strContains l ("HEAD branch"))).map
    (fun l => strip (String.mk ((splitOnChar colonChar l.toList).getLastD [])))

/-- The clone-or-update phase of `mirror_shallow` (lines 770-820): shallow
clone when not yet cloned; otherwise fetch, reset, and on reset failure
recover via the advertised default branch. -/
def shallowCloneOk (senv : ShallowEnv) : Bool :=
  if !senv.alreadyCloned then senv.cloneCode = 0
  else if senv.fetchCode ≠ 0 then false
  else if senv.resetCode ≠ 0 then
    match headBranchFrom senv.remoteShowOut with
    | some _ => senv.resetDefaultCode = 0
    | none => false
  else true

/-- Model of `LargeRepoHandler.mirror_shallow` (lines 762-850). -/
def mirror_shallow (senv : ShallowEnv) : Bool × List Event :=
  if !shallowCloneOk senv then (false, [.cloneSource])
  else if !setup_target_remote senv.remote then (false, [.cloneSource, .setupTarget])
  else if senv.pushCode ≠ 0 ∧ strContains senv.pushStderr ("protected branch") then
    let ev2 : List Event := [.cloneSource, .setupTarget, .shallowPush ("HEAD:master"),
      .shallowPush ("HEAD:migration-temp")]
    if senv.pushTempCode ≠ 0 then (false, ev2) else (true, ev2)
  else
    let ev2 : List Event := [.cloneSource, .setupTarget, .shallowPush ("HEAD:master")]
    if senv.pushCode ≠ 0 then (false, ev2) else (true, ev2)

/-- Model of `LargeRepoHandler.mirror_repository` (lines 744-760): dispatch on the
shallow flag. -/
def mirror_repository (shallow : Bool) (chunkSize : Nat) (env : MirrorEnv)
    (senv : ShallowEnv) (fuel : Nat) : Option (Bool × List Event) :=
  if shallow then some (mirror_shallow senv)
  else mirror_large_repo env fuel chunkSize

/-! ### Concrete environments used by witnesses and counterexamples -/

/-- Repository with a single branch `main` holding two commits `c1`, `c2`. -/
def envTwoCommits : RepoEnv :=
  ⟨0, "* main", 0, "main", fun _ => 0, fun _ => "c1 x\nc2 y"⟩

/-- Repository with a single branch `main` holding three commits. -/
def envThreeCommits : RepoEnv :=
  ⟨0, "* main", 0, "main", fun _ => 0, fun _ => "c1 x\nc2 y\nc3 z"⟩

/-- Repository with one commit `deadbee` on `main`. -/
def repoOneCommit : RepoEnv :=
  ⟨0, "* main", 0, "main", fun _ => 0, fun _ => "deadbee commit one"⟩

/-- Target remote whose configuration and verification all succeed. -/
def remoteOk : RemoteEnv := ⟨0, "origin", 0, 0, 0⟩

/-- Brand-new target: remote fine, fetch fine, but no `target/` branches yet. -/
def auditNewTarget : AuditEnv := ⟨remoteOk, 0, 0, "  origin/main", fun _ => 0, fun _ => ""⟩

/-- Every milestone push fails with a transient non-size error. -/
def envTransientFail : PushEnv :=
  ⟨repoOneCommit, auditNewTarget, 0, "deadbee",
    fun _ _ _ => (1, "error: RPC failed; the remote end hung up"), fun _ => 0⟩

/-- Every milestone push fails with the pack-size-exceeded message. -/
def envPackFail : PushEnv :=
  ⟨repoOneCommit, auditNewTarget, 0, "deadbee",
    fun _ _ _ => (1, "fatal: pack exceeds maximum allowed size"), fun _ => 0⟩

/-- Target already holds the only milestone commit `deadbee`; pushes and the
mirror push are made to fail so that any non-short-circuit path would show. -/
def auditCaughtUp : AuditEnv :=
  ⟨remoteOk, 0, 0, "  target/main", fun _ => 0, fun _ => "deadbee"⟩

/-- Push environment for an already-fully-transferred project. -/
def envCaughtUp : PushEnv :=
  ⟨repoOneCommit, auditCaughtUp, 0, "deadbee", fun _ _ _ => (1, "err"), fun _ => 1⟩

/-- Two-commit repository used for the per-milestone-failure witness. -/
def repoTwoForPush : RepoEnv := ⟨0, "* main", 0, "main", fun _ => 0, fun _ => "c1 x\nc2 y"⟩

/-- Pushes of milestone `c1` always fail with a non-size error; every other
milestone push succeeds immediately. -/
def envFirstFails : PushEnv :=
  ⟨repoTwoForPush, auditNewTarget, 0, "c2",
    fun _ s _ => if s = "c1" then (1, "transient network error") else (0, ""), fun _ => 0⟩

/-- Remote whose add succeeds but whose verification re-query fails. -/
def remoteVerifyFail : RemoteEnv := ⟨0, "origin", 0, 0, 1⟩

/-- Full-mirror environment in which only the remote verification step fails. -/
def envVerifyFail : MirrorEnv :=
  ⟨true, ⟨repoOneCommit, ⟨remoteVerifyFail, 0, 0, "", fun _ => 0, fun _ => ""⟩, 0, "deadbee",
    fun _ _ _ => (0, ""), fun _ => 0⟩⟩

/-- Remote whose initial `git remote` listing fails. -/
def remoteListFail : RemoteEnv := ⟨1, "", 0, 0, 0⟩

/-- Audit environment whose internal `setup_target_remote` fails. -/
def auditSetupFail : AuditEnv := ⟨remoteListFail, 0, 0, "", fun _ => 0, fun _ => ""⟩

/-! ### Conclusion predicates of the claim theorems -/

/-- The event trace of three failed attempts on one milestone:
push, 5 second backoff, push, 10 second backoff, final push. -/
def failTrace (br sha : String) : List Event :=
  [Event.milestonePush br sha 1, Event.sleep 5, Event.milestonePush br sha 2,
    Event.sleep 10, Event.milestonePush br sha 3]

/-- Conclusion of the C3 theorem: the milestones are exactly the commits at
positions `0, S, 2S, ...`, there are `ceil(N / S)` of them, the first is the
commit at position `0`, and the selected positions are strictly increasing. -/
def c3Conclusion (env : RepoEnv) (step : Nat) (b : String) : Prop :=
  findMilestones env step =
      (milestonePositions (parseLogLines (env.logOut b)).length step).map
        (fun j => firstWord ((parseLogLines (env.logOut b)).getD j ""))
    ∧ (findMilestones env step).length
        = ((parseLogLines (env.logOut b)).length + step - 1) / step
    ∧ (findMilestones env step).head? =
        some (firstWord ((parseLogLines (env.logOut b)).getD 0 ""))
    ∧ List.Pairwise (fun a b2 => a < b2)
        (milestonePositions (parseLogLines (env.logOut b)).length step)

/-- Conclusion of the C2 amended theorem: position `N - 1` (the tip) is
selected exactly when `(N - 1) % step = 0`, in which case the sha of the tip
is among the milestones. -/
def c2Conclusion (env : RepoEnv) (step : Nat) (b : String) : Prop :=
  ((parseLogLines (env.logOut b)).length - 1 ∈
      milestonePositions (parseLogLines (env.logOut b)).length step
    ↔ ((parseLogLines (env.logOut b)).length - 1) % step = 0)
  ∧ (((parseLogLines (env.logOut b)).length - 1) % step = 0 →
      firstWord ((parseLogLines (env.logOut b)).getD
        ((parseLogLines (env.logOut b)).length - 1) "") ∈ findMilestones env step)

/-- Conclusion of the C4 theorem: the run returns `true`, performs no
per-milestone push, and does run the final mirror-push reconciliation. -/
def c4Conclusion (env : PushEnv) (fuel step : Nat) : Prop :=
  ∃ tr, pushInChunks env (fuel + 1) step = some (true, tr)
    ∧ tr.any isMilestonePushEvent = false
    ∧ tr.any isMirrorPushEvent = true

/-- Conclusion of the C5 theorem, pack-size case: the run restarts as a run
with the halved step `max 50 (step / 2)`, with some events prepended. -/
def c5PackConclusion (env : PushEnv) (fuel step : Nat) : Prop :=
  ∃ pre, pushInChunks env (fuel + 1) step =
    Option.map (fun r => (r.1, pre ++ r.2)) (pushInChunks env fuel (max 50 (step / 2)))

/-- Conclusion of the C5 theorem, other-failure case: the overall flag becomes
`false` yet every remaining milestone still receives a push attempt. -/
def c5OtherConclusion (env : PushEnv) (fuel step : Nat) (rest : List String) : Prop :=
  ∃ tr, pushInChunks env (fuel + 1) step = some (false, tr)
    ∧ ∀ s ∈ rest, Event.milestonePush (pickBranch env.repo.branchListOut) s 1 ∈ tr

/-! ### Characterization of the milestone selection -/

theorem milestonesAux_eq (S : Nat) (L : List String) (h : ∀ l ∈ L, l ≠ "") :
    ∀ i, milestonesAux S i L =
      ((List.range' i L.length).filter (fun j => j % S == 0)).map
        (fun j => firstWord (L.getD (j - i) "")) := by
  induction L with
  | nil => intro i; simp [milestonesAux]
  | cons c t ih =>
    intro i
    have hc : c ≠ "" := h c (List.mem_cons_self c t)
    have ht : ∀ l ∈ t, l ≠ "" := fun l hl => h l (List.mem_cons_of_mem c hl)
    have hmap : ∀ j ∈ (List.range' (i + 1) t.length).filter (fun j => j % S == 0),
        firstWord ((c :: t).getD (j - i) "") = firstWord (t.getD (j - (i + 1)) "") := by
      intro j hj
      have hj2 : i + 1 ≤ j := (List.mem_range'_1.mp (List.mem_of_mem_filter hj)).1
      have hh : j - i = (j - (i + 1)) + 1 := by omega
      rw [hh, List.getD_cons_succ]
    rw [List.length_cons, List.range'_succ]
    by_cases hm : i % S = 0
    · rw [List.filter_cons_of_pos (by simp [hm]), List.map_cons]
      simp only [milestonesAux, if_pos (And.intro hm hc)]
      rw [Nat.sub_self, List.getD_cons_zero, ih ht (i + 1), List.map_congr_left hmap]
    · rw [List.filter_cons_of_neg (by simp [hm])]
      simp only [milestonesAux]
      rw [if_neg (by tauto), ih ht (i + 1), List.map_congr_left hmap]

theorem milestonesOf_eq (L : List String) (S : Nat) (h : ∀ l ∈ L, l ≠ "") :
    milestonesOf L S =
      (milestonePositions L.length S).map (fun j => firstWord (L.getD j "")) := by
  have hx := milestonesAux_eq S L h 0
  simpa [milestonesOf, milestonePositions, List.range_eq_range'] using hx

theorem length_milestonePositions (S : Nat) (hS : 1 ≤ S) (N : Nat) :
    (milestonePositions N S).length = (N + S - 1) / S := by
  induction N with
  | zero =>
    simp only [milestonePositions, List.range_zero, List.filter_nil, List.length_nil]
    rw [Nat.zero_add, Nat.div_eq_of_lt (by omega)]
  | succ M ih =>
    rw [milestonePositions] at ih ⊢
    rw [List.range_succ, List.filter_append, List.length_append, ih]
    have hstep : (M + 1 + S - 1) / S = M / S + 1 := by
      have hmm : M + 1 + S - 1 = M + S := by omega
      rw [hmm, Nat.add_div_right M (by omega)]
    rw [hstep]
    rcases Nat.eq_zero_or_pos M with hM | hM
    · subst hM
      simp [Nat.div_eq_of_lt (show S - 1 < S by omega), Nat.zero_mod]
    · obtain ⟨K, rfl⟩ : ∃ K, M = K + 1 := ⟨M - 1, by omega⟩
      have h1 : (K + 1 + S - 1) / S = K / S + 1 := by
        have hmm : K + 1 + S - 1 = K + S := by omega
        rw [hmm, Nat.add_div_right K (by omega)]
      rw [h1, Nat.succ_div]
      by_cases hd : S ∣ K + 1
      · have hm0 : (K + 1) % S = 0 := Nat.dvd_iff_mod_eq_zero.mp hd
        simp [hd, hm0, List.filter]
      · have hm0 : (K + 1) % S ≠ 0 := fun hc => hd (Nat.dvd_iff_mod_eq_zero.mpr hc)
        have hb : ((K + 1) % S == 0) = false := by simpa using hm0
        simp [hd, hb, List.filter]

theorem head_milestonePositions (S N : Nat) (hN : 1 ≤ N) :
    (milestonePositions N S).head? = some 0 := by
  obtain ⟨M, rfl⟩ : ∃ M, N = M + 1 := ⟨N - 1, by omega⟩
  rw [milestonePositions, List.range_succ_eq_map,
    List.filter_cons_of_pos (by simp [Nat.zero_mod])]
  rfl

theorem pairwise_milestonePositions (N S : Nat) :
    List.Pairwise (fun a b => a < b) (milestonePositions N S) :=
  (List.pairwise_lt_range N).filter _

theorem parseLogLines_mem_ne (out : String) : ∀ l ∈ parseLogLines out, l ≠ "" := by
  intro l hl hcontra
  have hx := List.of_mem_filter hl
  subst hcontra
  exact absurd hx (by decide)

theorem findMilestones_eq (env : RepoEnv) (step : Nat) (b : String)
    (hbl : env.branchListCode = 0) (hdb : defaultBranchOf env = some b)
    (hlog : env.logCode b = 0) (hne : parseLogLines (env.logOut b) ≠ []) :
    findMilestones env step = milestonesOf (parseLogLines (env.logOut b)) step := by
  simp [findMilestones, hbl, hdb, hlog, hne]

/-- C3: for a branch whose log parses to `N ≥ 1` commits and any step `S ≥ 1`,
`find_milestones` returns exactly `ceil(N / S)` commits, the first being the
commit at position 0 (the oldest), at strictly increasing history positions. -/
theorem find_milestones_count_first_increasing (env : RepoEnv) (step : Nat) (b : String)
    (hstep : 1 ≤ step) (hbl : env.branchListCode = 0) (hdb : defaultBranchOf env = some b)
    (hlog : env.logCode b = 0) (hne : parseLogLines (env.logOut b) ≠ []) :
    c3Conclusion env step b := by
  have hchar := (findMilestones_eq env step b hbl hdb hlog hne).trans
    (milestonesOf_eq _ step (parseLogLines_mem_ne _))
  have hN : 1 ≤ (parseLogLines (env.logOut b)).length := by
    have hx := List.length_pos.mpr hne
    omega
  refine ⟨hchar, ?_, ?_, pairwise_milestonePositions _ _⟩
  · rw [hchar, List.length_map, length_milestonePositions step hstep]
  · rw [hchar, List.head?_map, head_milestonePositions step _ hN]
    rfl

/-- Witness for C3 at a three-commit branch with step 2. -/
theorem find_milestones_count_first_increasing_witness :
    (1 ≤ 2 ∧ envThreeCommits.branchListCode = 0
      ∧ defaultBranchOf envThreeCommits = some "main"
      ∧ envThreeCommits.logCode "main" = 0
      ∧ parseLogLines (envThreeCommits.logOut "main") ≠ [])
    ∧ c3Conclusion envThreeCommits 2 "main" :=
  ⟨⟨by decide, by decide, by decide, by decide, by decide⟩,
    find_milestones_count_first_increasing envThreeCommits 2 "main" (by decide) (by decide)
      (by decide) (by decide) (by decide)⟩

/-- C2 counterexample: on a branch of two commits with step 2, the milestones
are `["c1"]` only, so the newest commit `c2` (position `N - 1 = 1`) is not in
the sequence returned by `find_milestones`. -/
theorem find_milestones_tip_counterexample :
    parseLogLines (envTwoCommits.logOut "main") = ["c1 x", "c2 y"]
    ∧ firstWord ((parseLogLines (envTwoCommits.logOut "main")).getD
        ((parseLogLines (envTwoCommits.logOut "main")).length - 1) "") = "c2"
    ∧ findMilestones envTwoCommits 2 = ["c1"]
    ∧ (findMilestones envTwoCommits 2).contains "c2" = false := by decide

/-- C2 amended: `find_milestones` includes the tip exactly when `N - 1` is a
multiple of the step; nothing in the planner extends the sequence otherwise. -/
theorem find_milestones_tip_iff (env : RepoEnv) (step : Nat) (b : String)
    (hbl : env.branchListCode = 0) (hdb : defaultBranchOf env = some b)
    (hlog : env.logCode b = 0) (hne : parseLogLines (env.logOut b) ≠ []) :
    c2Conclusion env step b := by
  have hchar := (findMilestones_eq env step b hbl hdb hlog hne).trans
    (milestonesOf_eq _ step (parseLogLines_mem_ne _))
  have hN : 1 ≤ (parseLogLines (env.logOut b)).length := by
    have hx := List.length_pos.mpr hne
    omega
  have hiff : (parseLogLines (env.logOut b)).length - 1 ∈
      milestonePositions (parseLogLines (env.logOut b)).length step
        ↔ ((parseLogLines (env.logOut b)).length - 1) % step = 0 := by
    simp only [milestonePositions, List.mem_filter, List.mem_range, beq_iff_eq]
    constructor
    · exact fun hx => hx.2
    · exact fun hx => ⟨by omega, hx⟩
  refine ⟨hiff, fun hmod => ?_⟩
  rw [hchar]
  exact List.mem_map_of_mem _ (hiff.mpr hmod)

/-- Witness for the C2 amended theorem at a three-commit branch with step 1
(where the tip position is a multiple of the step). -/
theorem find_milestones_tip_iff_witness :
    (envThreeCommits.branchListCode = 0
      ∧ defaultBranchOf envThreeCommits = some "main"
      ∧ envThreeCommits.logCode "main" = 0
      ∧ parseLogLines (envThreeCommits.logOut "main") ≠ [])
    ∧ c2Conclusion envThreeCommits 1 "main" :=
  ⟨⟨by decide, by decide, by decide, by decide⟩,
    find_milestones_tip_iff envThreeCommits 1 "main" (by decide) (by decide)
      (by decide) (by decide)⟩

/-! ### Trace lemmas for the push loops -/

theorem attemptResult_events_prepend (pre : List Event) (r : AttemptResult) :
    (r.prependEv pre).events = pre ++ r.events := by
  cases r <;> rfl

theorem loopResult_events_prepend (pre : List Event) (r : LoopResult) :
    (r.prependEv pre).events = pre ++ r.events := by
  cases r <;> rfl

theorem mirrorLoop_no_milestonePush (env : PushEnv) :
    ∀ l, (mirrorLoop env l).any isMilestonePushEvent = false := by
  intro l
  induction l with
  | nil => rfl
  | cons a t ih =>
    simp only [mirrorLoop]
    by_cases h0 : env.mirrorCode a = 0
    · simp [h0, isMilestonePushEvent]
    · by_cases h1 : a < maxRetries
      · simp [h0, h1, isMilestonePushEvent, ih]
      · simp [h0, h1, isMilestonePushEvent]

theorem mirrorLoop_has_mirrorPush (env : PushEnv) (a : Nat) (rest : List Nat) :
    (mirrorLoop env (a :: rest)).any isMirrorPushEvent = true := by
  simp only [mirrorLoop]
  by_cases h0 : env.mirrorCode a = 0
  · simp [h0, isMirrorPushEvent]
  · by_cases h1 : a < maxRetries
    · simp [h0, h1, isMirrorPushEvent]
    · simp [h0, h1, isMirrorPushEvent]

/-- C4: when the last planned milestone is already among the commits found on
the target, `push_in_chunks` skips the per-milestone loop (zero milestone
pushes in its trace), still runs the final mirror-push reconciliation, and
returns `true`. -/
theorem push_in_chunks_short_circuit (env : PushEnv) (fuel step : Nat)
    (hms : findMilestones env.repo step ≠ [])
    (hsetup : setup_target_remote env.auditEnv.remote = true)
    (hlast : (find_already_pushed_commits env.auditEnv).contains
      ((findMilestones env.repo step).getLastD "") = true) :
    c4Conclusion env fuel step := by
  unfold c4Conclusion
  simp only [pushInChunks, hms, hsetup, hlast, if_false, if_true, Bool.not_true,
    if_neg hms, ite_false, ite_true]
  refine ⟨_, rfl, ?_, ?_⟩
  · simp only [List.any_append, Bool.or_eq_false_iff]
    refine ⟨⟨?_, ?_⟩, mirrorLoop_no_milestonePush env _⟩
    · rfl
    · by_cases hp : env.revParseCode = 0 ∧ strip env.revParseOut ≠ ""
      · simp [hp, isMilestonePushEvent]
      · simp [hp]
  · simp only [List.any_append, Bool.or_eq_true_iff]
    exact Or.inr (mirrorLoop_has_mirrorPush env 1 [2, 3])

/-- Witness for C4: one-commit repository whose milestone is already on the
target; the run short-circuits even though pushes would fail. -/
theorem push_in_chunks_short_circuit_witness :
    (findMilestones envCaughtUp.repo 1000 ≠ []
      ∧ setup_target_remote envCaughtUp.auditEnv.remote = true
      ∧ (find_already_pushed_commits envCaughtUp.auditEnv).contains
          ((findMilestones envCaughtUp.repo 1000).getLastD "") = true)
    ∧ c4Conclusion envCaughtUp 3 1000 :=
  ⟨⟨by decide, by decide, by decide⟩,
    push_in_chunks_short_circuit envCaughtUp 3 1000 (by decide) (by decide) (by decide)⟩

/-- C6 counterexample: when every push attempt of a milestone fails, the actual
wait sequence is 5 s then 10 s only; no 20 s wait ever occurs, because the
third attempt is the last and is never followed by a sleep. -/
theorem backoff_counterexample :
    (attemptLoop envTransientFail "main" "deadbee" [1, 2, 3]).events =
      [Event.milestonePush "main" "deadbee" 1, Event.sleep 5,
        Event.milestonePush "main" "deadbee" 2, Event.sleep 10,
        Event.milestonePush "main" "deadbee" 3]
    ∧ ((attemptLoop envTransientFail "main" "deadbee" [1, 2, 3]).events.contains
        (Event.sleep 20)) = false := by decide

/-- C6 amended: each milestone push is attempted at most 3 times; the backoff
formula yields a 5 s wait after a failed first attempt and a 10 s wait after a
failed second attempt, and the trace is always one of the three schedules
below, none of which contains a 20 s wait. -/
theorem attempt_backoff_schedule (env : PushEnv) (b sha : String) :
    (attemptLoop env b sha [1, 2, 3]).events = [Event.milestonePush b sha 1]
    ∨ (attemptLoop env b sha [1, 2, 3]).events =
        [Event.milestonePush b sha 1, Event.sleep 5, Event.milestonePush b sha 2]
    ∨ (attemptLoop env b sha [1, 2, 3]).events =
        [Event.milestonePush b sha 1, Event.sleep 5, Event.milestonePush b sha 2,
          Event.sleep 10, Event.milestonePush b sha 3] := by
  simp only [attemptLoop, maxRetries]
  by_cases h1 : (env.push b sha 1).1 = 0
  · simp [h1, AttemptResult.events]
  · by_cases h2 : (env.push b sha 2).1 = 0
    · simp [h1, h2, AttemptResult.events, AttemptResult.prependEv]
    · by_cases h3 : (env.push b sha 3).1 = 0
      · simp [h1, h2, h3, AttemptResult.events, AttemptResult.prependEv]
      · by_cases h4 : strContains (env.push b sha 3).2 packMsg <;>
          simp [h1, h2, h3, h4, AttemptResult.events, AttemptResult.prependEv]

theorem audit_empty_cases (env : AuditEnv) :
    (setup_target_remote env.remote = false → find_already_pushed_commits env = [])
    ∧ (env.fetchCode ≠ 0 → find_already_pushed_commits env = [])
    ∧ (env.branchRCode ≠ 0 → find_already_pushed_commits env = [])
    ∧ (targetBranchesOf env.branchROut = [] → find_already_pushed_commits env = []) := by
  refine ⟨fun h => ?_, fun h => ?_, fun h => ?_, fun h => ?_⟩
  · simp [find_already_pushed_commits, h]
  · by_cases hs : setup_target_remote env.remote <;>
      simp [find_already_pushed_commits, h, hs]
  · by_cases hs : setup_target_remote env.remote <;>
      simp [find_already_pushed_commits, h, hs]
  · by_cases hs : setup_target_remote env.remote <;>
      simp [find_already_pushed_commits, h, hs]

theorem attemptLoop_head (env : PushEnv) (b sha : String) (a : Nat) (rest : List Nat) :
    (attemptLoop env b sha (a :: rest)).events.head? =
      some (Event.milestonePush b sha a) := by
  simp only [attemptLoop]
  by_cases h0 : (env.push b sha a).1 = 0
  · simp [h0, AttemptResult.events]
  · by_cases h1 : a < maxRetries
    · cases hr : attemptLoop env b sha rest <;>
        simp [h0, h1, hr, AttemptResult.prependEv, AttemptResult.events]
    · by_cases h2 : strContains (env.push b sha a).2 packMsg <;>
        simp [h0, h1, h2, AttemptResult.events]

theorem milestoneLoop_first_attempted (env : PushEnv) (step : Nat) (br sha : String)
    (rest : List String) (succ : Bool) :
    (milestoneLoop env step br (sha :: rest) [] succ).events.head? =
      some (Event.milestonePush br sha 1) := by
  simp only [milestoneLoop, List.contains_nil]
  have hhead := attemptLoop_head env br sha 1 [2, 3]
  cases hr : attemptLoop env br sha [1, 2, 3] with
  | pushed ev =>
    rw [hr] at hhead
    simp only [AttemptResult.events] at hhead
    cases ev with
    | nil => simp at hhead
    | cons e t =>
      simp only [List.head?_cons, Option.some.injEq] at hhead
      simp [loopResult_events_prepend, hhead]
  | failedPack ev =>
    rw [hr] at hhead
    simp only [AttemptResult.events] at hhead
    cases ev with
    | nil => simp at hhead
    | cons e t =>
      simp only [List.head?_cons, Option.some.injEq] at hhead
      simp [LoopResult.events, hhead]
  | failedOther ev =>
    rw [hr] at hhead
    simp only [AttemptResult.events] at hhead
    cases ev with
    | nil => simp at hhead
    | cons e t =>
      simp only [List.head?_cons, Option.some.injEq] at hhead
      simp [loopResult_events_prepend, hhead]

/-- C10: `find_already_pushed_commits` returns the empty set on target-remote
setup failure, on fetch failure, on branch-listing failure, and when no
`target/` branches exist — all indistinguishable from an empty target; with an
empty audit set the per-milestone loop skips nothing: its first event is a push
attempt for the first milestone. -/
theorem audit_failures_empty_and_loop (env : AuditEnv) :
    (setup_target_remote env.remote = false → find_already_pushed_commits env = [])
    ∧ (env.fetchCode ≠ 0 → find_already_pushed_commits env = [])
    ∧ (env.branchRCode ≠ 0 → find_already_pushed_commits env = [])
    ∧ (targetBranchesOf env.branchROut = [] → find_already_pushed_commits env = [])
    ∧ (∀ (penv : PushEnv) (step : Nat) (br sha : String) (rest : List String) (succ : Bool),
        (milestoneLoop penv step br (sha :: rest) [] succ).events.head?
          = some (Event.milestonePush br sha 1)) := by
  obtain ⟨h1, h2, h3, h4⟩ := audit_empty_cases env
  exact ⟨h1, h2, h3, h4,
    fun penv step br sha rest succ => milestoneLoop_first_attempted penv step br sha rest succ⟩

/-- Witness for C10: an audit environment whose remote listing fails yields the
empty commit set. -/
theorem audit_failures_empty_witness :
    setup_target_remote auditSetupFail.remote = false
    ∧ find_already_pushed_commits auditSetupFail = [] :=
  ⟨by decide, (audit_failures_empty_and_loop auditSetupFail).1 (by decide)⟩

/-! ### Final-attempt failure policy of the per-milestone loop -/

theorem attemptLoop_allFail (env : PushEnv) (br sha : String)
    (hf1 : (env.push br sha 1).1 ≠ 0) (hf2 : (env.push br sha 2).1 ≠ 0)
    (hf3 : (env.push br sha 3).1 ≠ 0) :
    attemptLoop env br sha [1, 2, 3] =
      if strContains (env.push br sha 3).2 packMsg then
        AttemptResult.failedPack (failTrace br sha)
      else
        AttemptResult.failedOther (failTrace br sha) := by
  by_cases h4 : strContains (env.push br sha 3).2 packMsg <;>
    simp [attemptLoop, maxRetries, AttemptResult.prependEv, hf1, hf2, hf3, h4, failTrace]

theorem mem_insertSha {acc : List String} {sha s : String} :
    s ∈ insertSha acc sha ↔ s ∈ acc ∨ s = sha := by
  unfold insertSha
  by_cases h : acc.contains sha
  · have hm : sha ∈ acc := by simpa using h
    simp only [h, if_true]
    constructor
    · exact fun hs => Or.inl hs
    · rintro (hs | rfl)
      · exact hs
      · exact hm
  · have hm : ¬sha ∈ acc := by simpa using h
    simp [hm]

theorem milestoneLoop_all_first_try (env : PushEnv) (step : Nat) (br : String) :
    ∀ (l : List String) (already : List String) (succ : Bool),
      (∀ s ∈ l, (env.push br s 1).1 = 0) → l.Nodup → (∀ s ∈ l, s ∉ already) →
      ∃ ev, milestoneLoop env step br l already succ = .completed succ ev
        ∧ ∀ s ∈ l, Event.milestonePush br s 1 ∈ ev := by
  intro l
  induction l with
  | nil =>
    intro already succ _ _ _
    exact ⟨[], rfl, by simp⟩
  | cons sha rest ih =>
    intro already succ hok hnd hnin
    have hsha : (env.push br sha 1).1 = 0 := hok sha (by simp)
    have hnc : already.contains sha = false := by
      have hx := hnin sha (by simp)
      simpa using hx
    have hatt : attemptLoop env br sha [1, 2, 3] =
        .pushed [Event.milestonePush br sha 1] := by
      simp [attemptLoop, hsha]
    obtain ⟨ev, hev, hmem⟩ := ih (insertSha already sha) succ
      (fun s hs => hok s (by simp [hs]))
      (List.nodup_cons.mp hnd).2
      (fun s hs hcontra => by
        rcases mem_insertSha.mp hcontra with hin | heq
        · exact hnin s (by simp [hs]) hin
        · exact (List.nodup_cons.mp hnd).1 (heq ▸ hs))
    refine ⟨Event.milestonePush br sha 1 :: ev, ?_, ?_⟩
    · simp only [milestoneLoop, hnc, hatt, Bool.false_eq_true, if_false]
      rw [hev]
      rfl
    · intro s hs
      rcases List.mem_cons.mp hs with rfl | hs
      · exact List.mem_cons_self _ _
      · exact List.mem_cons_of_mem _ (hmem s hs)

/-- C5: after the final (third) failed attempt for the first remaining
milestone, a pack-size failure message makes the run restart as
`push_in_chunks` with step `max 50 (step / 2)` (events prepended), while any
other failure records the milestone as failed (overall flag `false`) and the
loop continues, still attempting every remaining milestone. -/
theorem push_in_chunks_final_failure (env : PushEnv) (fuel step : Nat) (sha : String)
    (rest : List String)
    (hms : findMilestones env.repo step = sha :: rest)
    (hsetup : setup_target_remote env.auditEnv.remote = true)
    (haudit : find_already_pushed_commits env.auditEnv = [])
    (hf1 : (env.push (pickBranch env.repo.branchListOut) sha 1).1 ≠ 0)
    (hf2 : (env.push (pickBranch env.repo.branchListOut) sha 2).1 ≠ 0)
    (hf3 : (env.push (pickBranch env.repo.branchListOut) sha 3).1 ≠ 0) :
    (strContains (env.push (pickBranch env.repo.branchListOut) sha 3).2 packMsg = true →
      c5PackConclusion env fuel step)
    ∧ (strContains (env.push (pickBranch env.repo.branchListOut) sha 3).2 packMsg = false →
      (∀ s ∈ rest, (env.push (pickBranch env.repo.branchListOut) s 1).1 = 0) →
      (sha :: rest).Nodup →
      c5OtherConclusion env fuel step rest) := by
  constructor
  · intro hpack
    have hloop : milestoneLoop env step (pickBranch env.repo.branchListOut)
        (sha :: rest) [] true =
        .shrink (max 50 (step / 2))
          (failTrace (pickBranch env.repo.branchListOut) sha
            ++ [.shrinkStep step (max 50 (step / 2))]) := by
      simp only [milestoneLoop, List.contains_nil, Bool.false_eq_true, if_false]
      rw [attemptLoop_allFail env _ sha hf1 hf2 hf3, if_pos hpack]
    unfold c5PackConclusion
    refine ⟨Event.planMilestones step :: Event.setupTarget :: Event.audit ::
      ((if env.revParseCode = 0 ∧ strip env.revParseOut ≠ "" then
          [Event.probePush (strip env.revParseOut)] else [])
        ++ failTrace (pickBranch env.repo.branchListOut) sha
        ++ [Event.shrinkStep step (max 50 (step / 2))]), ?_⟩
    cases hx : pushInChunks env fuel (max 50 (step / 2)) with
    | none => simp [pushInChunks, hms, hsetup, haudit, hloop, hx]
    | some r =>
      obtain ⟨b, tr⟩ := r
      simp [pushInChunks, hms, hsetup, haudit, hloop, hx, List.append_assoc]
  · intro hpack hrest hnd
    have hloopFirst : milestoneLoop env step (pickBranch env.repo.branchListOut)
        (sha :: rest) [] true =
        (milestoneLoop env step (pickBranch env.repo.branchListOut) rest [] false).prependEv
          (failTrace (pickBranch env.repo.branchListOut) sha) := by
      simp only [milestoneLoop, List.contains_nil, Bool.false_eq_true, if_false]
      rw [attemptLoop_allFail env _ sha hf1 hf2 hf3, if_neg (by simp [hpack])]
    obtain ⟨ev2, hev2, hmem2⟩ := milestoneLoop_all_first_try env step
      (pickBranch env.repo.branchListOut) rest [] false hrest
      (List.nodup_cons.mp hnd).2 (by simp)
    have hloop : milestoneLoop env step (pickBranch env.repo.branchListOut)
        (sha :: rest) [] true =
        .completed false (failTrace (pickBranch env.repo.branchListOut) sha ++ ev2) := by
      rw [hloopFirst, hev2]
      rfl
    unfold c5OtherConclusion
    refine ⟨Event.planMilestones step :: Event.setupTarget :: Event.audit ::
      ((if env.revParseCode = 0 ∧ strip env.revParseOut ≠ "" then
          [Event.probePush (strip env.revParseOut)] else [])
        ++ ((failTrace (pickBranch env.repo.branchListOut) sha ++ ev2)
          ++ Event.audit :: (mirrorLoop env [1, 2, 3] ++ [Event.audit]))), ?_, ?_⟩
    · simp [pushInChunks, hms, hsetup, haudit, hloop]
    · intro s hs
      have hm := hmem2 s hs
      simp [List.mem_append, List.mem_cons, failTrace]
      tauto

/-- Witness for C5: two milestones, the first always failing with a non-size
error and the second succeeding immediately. -/
theorem push_in_chunks_final_failure_witness :
    (findMilestones envFirstFails.repo 1 = ["c1", "c2"]
      ∧ setup_target_remote envFirstFails.auditEnv.remote = true
      ∧ find_already_pushed_commits envFirstFails.auditEnv = []
      ∧ (envFirstFails.push (pickBranch envFirstFails.repo.branchListOut) "c1" 1).1 ≠ 0
      ∧ (envFirstFails.push (pickBranch envFirstFails.repo.branchListOut) "c1" 2).1 ≠ 0
      ∧ (envFirstFails.push (pickBranch envFirstFails.repo.branchListOut) "c1" 3).1 ≠ 0)
    ∧ ((strContains (envFirstFails.push (pickBranch envFirstFails.repo.branchListOut) "c1" 3).2
          packMsg = true → c5PackConclusion envFirstFails 2 1)
      ∧ (strContains (envFirstFails.push (pickBranch envFirstFails.repo.branchListOut) "c1" 3).2
            packMsg = false →
          (∀ s ∈ ["c2"],
            (envFirstFails.push (pickBranch envFirstFails.repo.branchListOut) s 1).1 = 0) →
          (["c1", "c2"] : List String).Nodup →
          c5OtherConclusion envFirstFails 2 1 ["c2"])) :=
  ⟨⟨by decide, by decide, by decide, by decide, by decide, by decide⟩,
    push_in_chunks_final_failure envFirstFails 2 1 "c1" ["c2"] (by decide) (by decide)
      (by decide) (by decide) (by decide) (by decide)⟩

/-- C7 counterexample: in a run in which only the verification re-query of the
target remote fails, `setup_target_remote` returns `false` and
`mirror_large_repo` aborts with `false` before any push-phase event — the run
does not proceed to the push phase, contradicting the claim. -/
theorem setup_verify_counterexample :
    remoteVerifyFail.listCode = 0 ∧ remoteVerifyFail.addCode = 0
    ∧ remoteVerifyFail.setUrlCode = 0 ∧ remoteVerifyFail.getUrlCode = 1
    ∧ envVerifyFail.cloneOk = true
    ∧ setup_target_remote remoteVerifyFail = false
    ∧ mirror_large_repo envVerifyFail 5 1000
        = some (false, [Event.cloneSource, Event.setupTarget])
    ∧ [Event.cloneSource, Event.setupTarget].any isPlanEvent = false
    ∧ [Event.cloneSource, Event.setupTarget].any isMilestonePushEvent = false := by decide

/-- C7 amended: a failed verification re-query makes `setup_target_remote`
return `false`, so `mirror_large_repo` reports failure immediately and never
reaches the push phase. -/
theorem setup_verify_failure_aborts (env : MirrorEnv) (fuel step : Nat)
    (hver : env.pushEnv.auditEnv.remote.getUrlCode ≠ 0) (hclone : env.cloneOk = true) :
    setup_target_remote env.pushEnv.auditEnv.remote = false
    ∧ mirror_large_repo env fuel step = some (false, [Event.cloneSource, Event.setupTarget])
    ∧ [Event.cloneSource, Event.setupTarget].any isPlanEvent = false
    ∧ [Event.cloneSource, Event.setupTarget].any isMilestonePushEvent = false := by
  have hsf : setup_target_remote env.pushEnv.auditEnv.remote = false := by
    unfold setup_target_remote
    by_cases h1 : env.pushEnv.auditEnv.remote.listCode ≠ 0
    · simp [h1]
    · by_cases hmem : "target" ∈ remotesOf env.pushEnv.auditEnv.remote.listOut
      · by_cases h2 : env.pushEnv.auditEnv.remote.setUrlCode ≠ 0 <;>
          simp [h1, hmem, h2, hver]
      · by_cases h2 : env.pushEnv.auditEnv.remote.addCode ≠ 0 <;>
          simp [h1, hmem, h2, hver]
  refine ⟨hsf, ?_, rfl, rfl⟩
  simp [mirror_large_repo, hclone, hsf]

/-- Witness for the C7 amended theorem at the concrete verify-failure run. -/
theorem setup_verify_failure_aborts_witness :
    (envVerifyFail.pushEnv.auditEnv.remote.getUrlCode ≠ 0 ∧ envVerifyFail.cloneOk = true)
    ∧ (setup_target_remote envVerifyFail.pushEnv.auditEnv.remote = false
      ∧ mirror_large_repo envVerifyFail 5 1000
          = some (false, [Event.cloneSource, Event.setupTarget])
      ∧ [Event.cloneSource, Event.setupTarget].any isPlanEvent = false
      ∧ [Event.cloneSource, Event.setupTarget].any isMilestonePushEvent = false) :=
  ⟨⟨by decide, by decide⟩,
    setup_verify_failure_aborts envVerifyFail 5 1000 (by decide) (by decide)⟩

/-! ### Independence of the result from the final mirror push -/

theorem withMirror_push (env : PushEnv) (m : Nat → Nat) :
    (withMirror env m).push = env.push := rfl

theorem withMirror_repo (env : PushEnv) (m : Nat → Nat) :
    (withMirror env m).repo = env.repo := rfl

theorem withMirror_auditEnv (env : PushEnv) (m : Nat → Nat) :
    (withMirror env m).auditEnv = env.auditEnv := rfl

theorem withMirror_revParseCode (env : PushEnv) (m : Nat → Nat) :
    (withMirror env m).revParseCode = env.revParseCode := rfl

theorem withMirror_revParseOut (env : PushEnv) (m : Nat → Nat) :
    (withMirror env m).revParseOut = env.revParseOut := rfl

theorem attemptLoop_withMirror (env : PushEnv) (m : Nat → Nat) (b sha : String) :
    ∀ l, attemptLoop (withMirror env m) b sha l = attemptLoop env b sha l := by
  intro l
  induction l with
  | nil => rfl
  | cons a t ih => simp only [attemptLoop, withMirror_push, ih]

theorem milestoneLoop_withMirror (env : PushEnv) (m : Nat → Nat) (step : Nat) (br : String) :
    ∀ l already succ, milestoneLoop (withMirror env m) step br l already succ
      = milestoneLoop env step br l already succ := by
  intro l
  induction l with
  | nil => intro already succ; rfl
  | cons sha rest ih =>
    intro already succ
    simp only [milestoneLoop, attemptLoop_withMirror]
    cases hr : attemptLoop env br sha [1, 2, 3] <;> simp [hr, ih]

/-- C8: the success flag returned by `push_in_chunks` does not depend on the
outcomes of the final mirror-style push of all refs — replacing the mirror-push
outcome function by anything at all (for example, always failing) leaves the
returned flag unchanged, so a mirror-push failure never flips an
otherwise-successful run to `false`. -/
theorem push_in_chunks_mirror_independent (env : PushEnv) (m : Nat → Nat) :
    ∀ fuel step, (pushInChunks (withMirror env m) fuel step).map (fun r => r.1)
      = (pushInChunks env fuel step).map (fun r => r.1) := by
  intro fuel
  induction fuel with
  | zero => intro step; rfl
  | succ f ih =>
    intro step
    by_cases h1 : findMilestones env.repo step = []
    · simp [pushInChunks, withMirror_repo, withMirror_auditEnv, h1]
    · by_cases h2 : setup_target_remote env.auditEnv.remote = true
      · by_cases h3 : (findMilestones env.repo step).getLastD "" ∈
            find_already_pushed_commits env.auditEnv
        · have h3g := h3
          rw [List.getLastD_eq_getLast?] at h3g
          simp [pushInChunks, withMirror_repo, withMirror_auditEnv, withMirror_revParseCode,
            withMirror_revParseOut, h1, h2, h3g]
        · have h3f := h3
          rw [List.getLastD_eq_getLast?] at h3f
          simp only [pushInChunks, withMirror_repo, withMirror_auditEnv,
            withMirror_revParseCode, withMirror_revParseOut, milestoneLoop_withMirror]
          cases hres : milestoneLoop env step (pickBranch env.repo.branchListOut)
              (findMilestones env.repo step) (find_already_pushed_commits env.auditEnv) true with
          | completed s ev => simp [h1, h2, h3f, hres]
          | shrink ns ev =>
            have hih := ih ns
            cases hx : pushInChunks env f ns with
            | none =>
              rw [hx] at hih
              cases hy : pushInChunks (withMirror env m) f ns with
              | none => simp [h1, h2, h3f, hres, hx, hy]
              | some r =>
                rw [hy] at hih
                simp at hih
            | some r =>
              rw [hx] at hih
              cases hy : pushInChunks (withMirror env m) f ns with
              | none =>
                rw [hy] at hih
                simp at hih
              | some r2 =>
                rw [hy] at hih
                obtain ⟨b1, tr1⟩ := r
                obtain ⟨b2, tr2⟩ := r2
                simp at hih
                subst hih
                simp [h1, h2, h3f, hres, hx, hy]
      · have h2f : setup_target_remote env.auditEnv.remote = false := by
          simpa using h2
        simp [pushInChunks, withMirror_repo, withMirror_auditEnv, h1, h2f]

/-! ### Shallow path and shrink non-termination -/

theorem mirror_shallow_no_planner (senv : ShallowEnv) :
    (mirror_shallow senv).2.any isPlanEvent = false
    ∧ (mirror_shallow senv).2.any isShrinkEvent = false := by
  unfold mirror_shallow
  by_cases h1 : !shallowCloneOk senv <;>
  by_cases h2 : !setup_target_remote senv.remote <;>
  by_cases h3 : senv.pushCode ≠ 0 ∧ strContains senv.pushStderr ("protected branch") = true <;>
  by_cases h4 : senv.pushTempCode ≠ 0 <;>
  by_cases h5 : senv.pushCode ≠ 0 <;>
  by_cases h6 : strContains senv.pushStderr ("protected branch") = true <;>
  simp [h1, h2, h3, h4, h5, h6, isPlanEvent, isShrinkEvent]

/-- C9: with the shallow flag set, `mirror_repository` runs exactly
`mirror_shallow`, whose trace never contains a milestone-planning event or a
step-shrinking event — the milestone planner and the size-triggered shrink
logic are never invoked. -/
theorem shallow_path_no_planner (chunkSize : Nat) (env : MirrorEnv)
    (senv : ShallowEnv) (fuel : Nat) :
    mirror_repository true chunkSize env senv fuel = some (mirror_shallow senv)
    ∧ (mirror_shallow senv).2.any isPlanEvent = false
    ∧ (mirror_shallow senv).2.any isShrinkEvent = false :=
  ⟨rfl, (mirror_shallow_no_planner senv).1, (mirror_shallow_no_planner senv).2⟩

theorem findMilestones_repoOneCommit (step : Nat) :
    findMilestones repoOneCommit step = ["deadbee"] := by
  have hdb : defaultBranchOf repoOneCommit = some "main" := by decide
  have hparse : parseLogLines (repoOneCommit.logOut "main") = ["deadbee commit one"] := by
    decide
  rw [findMilestones_eq repoOneCommit step "main" rfl hdb rfl (by rw [hparse]; decide)]
  rw [milestonesOf, hparse]
  simp only [milestonesAux, Nat.zero_mod]
  decide

theorem attemptLoop_envPackFail (br sha : String) :
    attemptLoop envPackFail br sha [1, 2, 3] = AttemptResult.failedPack
      [Event.milestonePush br sha 1, Event.sleep 5, Event.milestonePush br sha 2,
        Event.sleep 10, Event.milestonePush br sha 3] := by
  have hs : strContains ("fatal: pack exceeds maximum allowed size") packMsg = true := by
    decide
  simp [attemptLoop, envPackFail, maxRetries, AttemptResult.prependEv, hs]

theorem push_in_chunks_pack_nonterminating :
    ∀ fuel step, pushInChunks envPackFail fuel step = none := by
  intro fuel
  induction fuel with
  | zero => intro step; rfl
  | succ f ih =>
    intro step
    have hms : findMilestones envPackFail.repo step = ["deadbee"] :=
      findMilestones_repoOneCommit step
    have hsetup : setup_target_remote envPackFail.auditEnv.remote = true := by decide
    have haud : find_already_pushed_commits envPackFail.auditEnv = [] := by decide
    simp only [pushInChunks, hms, hsetup, haud]
    simp [milestoneLoop, attemptLoop_envPackFail, ih]

/-- C1: under persistent pack-size-exceeded push failures the shrink-and-retry
recursion of `push_in_chunks` never completes within any recursion depth, for
every starting step — once the step reaches the floor of 50, the recursion
calls itself with `max 50 (50 / 2) = 50` again, an unchanged step, so it loops
unboundedly instead of reporting failure at the floor. -/
theorem push_in_chunks_shrink_floor_nonterminating :
    (∀ fuel step, pushInChunks envPackFail fuel step = none) ∧ max 50 (50 / 2) = 50 :=
  ⟨push_in_chunks_pack_nonterminating, rfl⟩

end GitlabMirror
